import Mathlib

/-!
Verification of the PECS reconciliation / partitioned-export scripts.

The embedding models the data handling of the repository's Python sources:
pandas tables become lists of records (association lists from column name to
an optional string value, `none` standing for a null/NaN cell), the pandas
calls used by the scripts (left merge with indicator, groupby, dropna,
drop_duplicates, unique) are given their documented list semantics, and the
Python string methods used for sanitization and parsing are modelled over
the character list of a `String` so that every definition evaluates inside
the kernel.
-/

namespace PECS

/-- A cell value: `none` models a null (pandas NaN), `some s` a scalar
rendered as a string. -/
abbrev Val := Option String

/-- A record: an ordered association of column name to cell value. -/
abbrev Row := List (String × Val)

/-- Reading a column of a row; an absent column reads as null. -/
def rowGet (r : Row) (c : String) : Val := (List.lookup c r).join

/-- Whitespace as Python str.strip removes it (space, tab, newline, carriage
return; the rarer Python whitespace code points do not occur in the data
handled here). -/
def isPySpace (c : Char) : Bool := c == ' ' || c == '\t' || c == '\n' || c == '\r'

/-- Python str.strip(): remove surrounding whitespace. -/
def pyStrip (s : String) : String :=
  String.mk (((s.data.dropWhile isPySpace).reverse.dropWhile isPySpace).reverse)

/-- Python str.replace(c, d) for one-character arguments, as the sources use
it (replace('/', '_') in pecs_listing_main_processor.py line 123-124,
replace(' ', '_') in pecsmain.py lines 64-65). -/
def pyReplaceChar (c d : Char) (s : String) : String :=
  String.mk (s.data.map fun x => if x == c then d else x)

/-- Helper for `pySplit`: accumulates the current field in reverse. -/
def pySplitAux (sep : Char) : List Char → List Char → List String
  | [], acc => [String.mk acc.reverse]
  | x :: xs, acc =>
    if x == sep then String.mk acc.reverse :: pySplitAux sep xs []
    else pySplitAux sep xs (x :: acc)

/-- Python s.split(sep) for a one-character separator. -/
def pySplit (sep : Char) (s : String) : List String := pySplitAux sep s.data []

/-- Python str.lower(). -/
def pyLower (s : String) : String := String.mk (s.data.map Char.toLower)

/-- Lexicographic comparison of character lists by code point, the order in
which both Python and pandas compare strings. -/
def charListLt : List Char → List Char → Bool
  | [], [] => false
  | [], _ :: _ => true
  | _ :: _, [] => false
  | a :: as, b :: bs => decide (a.toNat < b.toNat) || (a == b && charListLt as bs)

/-- Strict string order by code points. -/
def strLt (a b : String) : Bool := charListLt a.data b.data

/-- Keep the first occurrence of every element, in input order, given the
elements already seen: the semantics of pandas drop_duplicates() and of
Series.unique(). -/
def dedupFirst {α : Type*} [DecidableEq α] (seen : List α) : List α → List α
  | [] => []
  | x :: xs => if x ∈ seen then dedupFirst seen xs else x :: dedupFirst (x :: seen) xs

/-- The five column names of pecs_listing_main_processor.py (selected_cols,
lines 59-70): join key and secondary key of each table plus the reference
table's state (group) column. -/
structure Cfg where
  ref_ean : String
  ref_secondary : String
  state : String
  data_ean : String
  data_secondary : String
  deriving DecidableEq

/-- One row of the indicator merge: a reference record paired with a matched
data record, or with `none` for a left_only (unmatched) row. -/
structure JoinedRow where
  ref : Row
  data : Option Row
  deriving DecidableEq

/-- The data rows whose (data_ean, data_secondary) values equal the given
reference row's (ref_ean, ref_secondary) values, in data-table order: the
match set of the pandas merge of pecs_listing_main_processor.py lines 84-90. -/
def matchesOf (data : List Row) (cfg : Cfg) (r : Row) : List Row :=
  data.filter fun d =>
    rowGet d cfg.data_ean == rowGet r cfg.ref_ean &&
    rowGet d cfg.data_secondary == rowGet r cfg.ref_secondary

/-- The joined rows one reference row contributes: one matched row per
matching data row, else a single left_only row. -/
def joinBlock (data : List Row) (cfg : Cfg) (r : Row) : List JoinedRow :=
  match matchesOf data cfg r with
  | [] => [⟨r, none⟩]
  | ms => ms.map fun d => ⟨r, some d⟩

/-- pecs_listing_main_processor.py lines 84-90: ref_df.merge(data_df,
left_on=[ean, secondary], right_on=[ean, secondary], how='left',
indicator=True). A left merge preserves reference-row order as the outer
loop and matching-data-row order within each reference row. -/
def mergeLeft (ref data : List Row) (cfg : Cfg) : List JoinedRow :=
  ref.flatMap (joinBlock data cfg)

/-- The left_only test of line 101: merged['_merge'] == 'left_only'. -/
def isUnmatched (jr : JoinedRow) : Bool := jr.data.isNone

/-- Line 109: merged[missing_mask][[ref_ean, state]], the (Missing EAN,
State) projection of the left_only rows, in merge order. -/
def projectMissing (merged : List JoinedRow) (cfg : Cfg) : List (Val × Val) :=
  (merged.filter isUnmatched).map fun jr =>
    (rowGet jr.ref cfg.ref_ean, rowGet jr.ref cfg.state)

/-- Lines 109-113: the missing report is the projection with
drop_duplicates() applied — first occurrence kept, order preserved, and no
sorting step. -/
def missingReport (merged : List JoinedRow) (cfg : Cfg) : List (Val × Val) :=
  dedupFirst [] (projectMissing merged cfg)

/-- Lines 123-124: str(x).replace('/', '_').strip(), the only sanitization
the script applies to a state or EAN value before it becomes a path part. -/
def sanitize (s : String) : String := pyStrip (pyReplaceChar '/' '_' s)

/-- Lines 126-129: the archive path of a (state, ean) group. -/
def pathOf (k : String × String) : String := sanitize k.1 ++ "/" ++ sanitize k.2 ++ ".csv"

/-- The (state, ean) key of each merged row; pandas groupby (line 119)
drops a row whose key holds a null, so those rows yield no key. -/
def mergedKeys (merged : List JoinedRow) (cfg : Cfg) : List (String × String) :=
  merged.filterMap fun jr =>
    match rowGet jr.ref cfg.state, rowGet jr.ref cfg.ref_ean with
    | some s, some e => some (s, e)
    | _, _ => none

/-- Order on (state, ean) keys: lexicographic by state then ean, the order
pandas groupby(sort=True) iterates group keys in. -/
def keyLe (a b : String × String) : Bool :=
  strLt a.1 b.1 || (a.1 == b.1 && !(strLt b.2 a.2))

/-- Insertion step of the sort on group keys. -/
def insertKey (k : String × String) : List (String × String) → List (String × String)
  | [] => [k]
  | x :: xs => if keyLe k x then k :: x :: xs else x :: insertKey k xs

/-- Insertion sort on group keys. -/
def sortKeys : List (String × String) → List (String × String)
  | [] => []
  | x :: xs => insertKey x (sortKeys xs)

/-- Line 119: merged.groupby([state, ref_ean]) — the distinct non-null
(state, ean) keys of all merged rows (matched and left_only alike), in the
sorted order groupby iterates them. -/
def groupbyKeys (merged : List JoinedRow) (cfg : Cfg) : List (String × String) :=
  sortKeys (dedupFirst [] (mergedKeys merged cfg))

/-- The rows of one groupby group, in merge order. -/
def groupRows (merged : List JoinedRow) (cfg : Cfg) (k : String × String) : List JoinedRow :=
  merged.filter fun jr =>
    rowGet jr.ref cfg.state == some k.1 && rowGet jr.ref cfg.ref_ean == some k.2

/-- A serialized output file: a partition's joined rows, or the missing
report's entries. -/
inductive FileData where
  | partition (rows : List JoinedRow)
  | report (entries : List (Val × Val))
  deriving DecidableEq

/-- Writing a file at a path into the output directory: a later write to the
same path silently overwrites the earlier file, as to_csv does on line 135. -/
def fsWrite (tree : List (String × FileData)) (p : String) (c : FileData) :
    List (String × FileData) :=
  tree.filter (fun e => !(e.1 == p)) ++ [(p, c)]

/-- Lines 119-135: every groupby group — matched or left_only — is written
to sanitized path state/ean.csv; there is no collision check. -/
def buildTree (merged : List JoinedRow) (cfg : Cfg) (init : List (String × FileData)) :
    List (String × FileData) :=
  (groupbyKeys merged cfg).foldl
    (fun t k => fsWrite t (pathOf k) (FileData.partition (groupRows merged cfg k))) init

/-- A parsed table: its schema and its rows. -/
structure Table where
  cols : List String
  rows : List Row
  deriving DecidableEq

/-- The only failure the processing block raises itself (line 98): the state
column missing from the merged frame. -/
inductive PipelineError where
  | keyError (col : String)
  deriving DecidableEq

/-- pecs_listing_main_processor.py lines 79-135, the processing block: check
the state column (lines 93-98; pandas suffixing keeps a reference-table state
column findable, so the check is presence in the reference schema), left
merge, write the missing report when any row is left_only (lines 108-116),
then write every groupby group's file (lines 119-135). -/
def runPipelineE (ref data : Table) (cfg : Cfg) :
    Except PipelineError (List (String × FileData)) :=
  if cfg.state ∈ ref.cols then
    let merged := mergeLeft ref.rows data.rows cfg
    let init :=
      if (merged.filter isUnmatched).isEmpty then []
      else [("missing_eans.xlsx", FileData.report (missingReport merged cfg))]
    .ok (buildTree merged cfg init)
  else .error (.keyError cfg.state)

/-- One entry of the ZIP archive. zipf.write (line 16) stores the file's
modification time in the entry header, so the entry carries an mtime. -/
structure ZipEntry where
  arcname : String
  mtime : Nat
  fileData : FileData
  deriving DecidableEq

/-- Lines 8-18: create_zip walks the output folder and adds every file at
its relative path; `walk` is the file list in os.walk order, each file with
the modification time the filesystem recorded for it. -/
def create_zip (walk : List (String × Nat × FileData)) : List ZipEntry :=
  walk.map fun f => ⟨f.1, f.2.1, f.2.2⟩

/-- A whole invocation of the processing block followed by create_zip: the
files were all written during this run, so each carries the run's clock as
its modification time. -/
def pipelineArchive (ref data : Table) (cfg : Cfg) (mtime : Nat) :
    Except PipelineError (List ZipEntry) :=
  (runPipelineE ref data cfg).map fun tree =>
    create_zip (tree.map fun e => (e.1, mtime, e.2))

/-- pandas series.dropna().unique(): the non-null values, first occurrence
order (pecsmain.py lines 51 and 56). -/
def uniqueVals (vals : List Val) : List String := dedupFirst [] (vals.filterMap id)

/-- pecsmain.py lines 63-68: folder and file names replace spaces with
underscores; nothing else is sanitized.  -/
def zipEntryPath (g s : String) : String :=
  pyReplaceChar ' ' '_' g ++ "/" ++ pyReplaceChar ' ' '_' s ++ ".csv"

/-- pecsmain.py lines 49-71: for every non-null value of the grouping
column, and within it every non-null value of the splitting column, write
the matching rows at folder/file.csv. Rows whose grouping or splitting value
is null are skipped by dropna and appear nowhere. -/
def pecsmainSplit (df : List Row) (groupingCol splitCol : String) :
    List (String × List Row) :=
  (uniqueVals (df.map fun r => rowGet r groupingCol)).flatMap fun g =>
    let dfGroup := df.filter fun r => rowGet r groupingCol == some g
    (uniqueVals (dfGroup.map fun r => rowGet r splitCol)).map fun s =>
      (zipEntryPath g s, dfGroup.filter fun r => rowGet r splitCol == some s)

/-- str(row.get(col, '')): an absent column reads as the default '', a
present null renders as the string 'nan' (str of float nan), a scalar as
itself (pecs_hh_verify.py line 11 and 27). -/
def cellStr (r : Row) (c : String) : String :=
  match List.lookup c r with
  | none => ""
  | some none => "nan"
  | some (some s) => s

/-- The numeric value of a digit list, most significant first. -/
def pyDigitsToNat (l : List Char) : Nat := l.foldl (fun n c => n * 10 + (c.toNat - 48)) 0

/-- Python int(s) on an already-stripped figure: an optional sign followed by
digits; anything else raises ValueError, modelled as `none`. (PEP 515
underscore grouping is not modelled; the classification invariants proved
below do not depend on which figures parse.) -/
def pyInt? (s : String) : Option Int :=
  match s.data with
  | [] => none
  | '-' :: rest =>
    if rest ≠ [] ∧ rest.all Char.isDigit then some (-(pyDigitsToNat rest : Int)) else none
  | '+' :: rest =>
    if rest ≠ [] ∧ rest.all Char.isDigit then some (pyDigitsToNat rest : Int) else none
  | l => if l.all Char.isDigit then some (pyDigitsToNat l : Int) else none

/-- pecs_hh_verify.py lines 20-35: a figure is eligible precisely when it
parses as an integer, the column enfant_6_59_{n} exists, and that column's
value strips and lowercases to 'yes' or '1'; a parse failure, a missing
column, or any other value makes it non-eligible. -/
def classifyFig (cols : List String) (row : Row) (fig : String) : Bool :=
  match pyInt? fig with
  | none => false
  | some n =>
    let columnName := "enfant_6_59_" ++ toString n
    if columnName ∈ cols then
      let value := pyLower (pyStrip (cellStr row columnName))
      value == "yes" || value == "1"
    else false

/-- pecs_hh_verify.py lines 11-14: the comma-separated household figures of
a row, each stripped, empty entries removed. -/
def figuresOf (row : Row) (selectedCol : String) : List String :=
  ((pySplit ',' (pyStrip (cellStr row selectedCol))).map pyStrip).filter (fun f => f ≠ "")

/-- One output row of the eligibility analyzer. -/
structure HHResult where
  state : Val
  ean : Val
  total : Nat
  eligible : List String
  nonEligible : List String
  deriving DecidableEq

/-- pecs_hh_verify.py lines 8-45, one row: every figure is appended to
exactly one of the two lists, and the counts are the list lengths. -/
def processRowHH (cols : List String) (selectedCol : String) (row : Row) : HHResult :=
  let figures := figuresOf row selectedCol
  { state := rowGet row "state"
    ean := rowGet row "EAN"
    total := figures.length
    eligible := figures.filter (classifyFig cols row)
    nonEligible := figures.filter fun f => !(classifyFig cols row f) }

/-- pecs_hh_verify.py process_data: one result row per input row. -/
def process_data (cols : List String) (selectedCol : String) (rows : List Row) : List HHResult :=
  rows.map (processRowHH cols selectedCol)

/-- pecs_hh_verify.py lines 61-67: the checks run in order and the first
failure stops the app (st.stop). The value is the list of column names the
emitted message cites: the first check's message names only the selected
column; the second check's fixed message cites 'state' and 'EAN'. `none`
means validation passed. -/
def hhVerifyReported (cols : List String) (selectedCol : String) : Option (List String) :=
  if selectedCol ∈ cols then
    if "state" ∈ cols ∧ "EAN" ∈ cols then none
    else some ["state", "EAN"]
  else some [selectedCol]

/-- pecs.py lines 37-39: one fixed ValueError message citing 'state' and
'EAN', raised whenever either is absent, before any row is processed. -/
def requiredColumnsCheck (cols : List String) : Option (List String) :=
  if "state" ∈ cols ∧ "EAN" ∈ cols then none else some ["state", "EAN"]

/-- One listing row of pecs.py lines 106-112. -/
structure Listing where
  state : String
  ean : String
  listing_count : String
  long : Val
  lat : Val
  deriving DecidableEq

/-- pecs.py lines 99-102: the latitude column paired with a longitude
suffix. -/
def latColOf (useGeneric : Bool) (suffix : Nat) : String :=
  if useGeneric then "Latitude" else "location_gps-Latitude_" ++ toString suffix

/-- The listing built from one longitude column (pecs.py lines 104-112):
row.get of a missing or null latitude yields null. -/
def mkListing (state ean : String) (useGeneric : Bool) (row : Row) (c : Nat × String) : Listing :=
  { state := state
    ean := ean
    listing_count := ean ++ "_" ++ toString c.1
    long := rowGet row c.2
    lat := rowGet row (latColOf useGeneric c.1) }

/-- pecs.py lines 92-112, the coordinate loop: walk the longitude columns in
the given order and stop (break, line 96) at the first null longitude. -/
def extractListings (state ean : String) (useGeneric : Bool) (row : Row) :
    List (Nat × String) → List Listing
  | [] => []
  | c :: rest =>
    match rowGet row c.2 with
    | none => []
    | some _ => mkListing state ean useGeneric row c :: extractListings state ean useGeneric row rest

/-- Insertion step of the stable sort on longitude columns. -/
def insertBySuffix (c : Nat × String) : List (Nat × String) → List (Nat × String)
  | [] => [c]
  | x :: xs => if c.1 ≤ x.1 then c :: x :: xs else x :: insertBySuffix c xs

/-- pecs.py line 73: long_columns.sort(key=lambda x: x[0]) — ascending
suffix order. -/
def sortBySuffix : List (Nat × String) → List (Nat × String)
  | [] => []
  | c :: cs => insertBySuffix c (sortBySuffix cs)

/-- pecs.py lines 82-122, one row: extract listings over the
suffix-sorted longitude columns; write state/EAN.csv only when at least one
listing was produced (line 114), else no file at all. -/
def row_output (state ean : String) (useGeneric : Bool)
    (longCols : List (Nat × String)) (row : Row) : Option (String × List Listing) :=
  match extractListings state ean useGeneric row (sortBySuffix longCols) with
  | [] => none
  | ls => some (state ++ "/" ++ ean ++ ".csv", ls)

/-- Order on optional values: null first, then code-point order — used only
to state sortedness of report entries. -/
def valLe (a b : Val) : Bool :=
  match a, b with
  | none, _ => true
  | some _, none => false
  | some x, some y => !(strLt y x)

/-- Lexicographic order on (join key, group key) report entries. -/
def pairLe (a b : Val × Val) : Bool :=
  if a.1 == b.1 then valLe a.2 b.2 else valLe a.1 b.1

/-- Whether a list is sorted under the given total order. -/
def sortedByB {α : Type*} (le : α → α → Bool) : List α → Bool
  | [] => true
  | [_] => true
  | a :: b :: t => le a b && sortedByB le (b :: t)

/-- The configuration of the worked examples: EAN doubles as its own
secondary key (the column pickers allow selecting one column twice). -/
def cfgEx : Cfg :=
  { ref_ean := "EAN", ref_secondary := "EAN", state := "state"
    data_ean := "EAN", data_secondary := "EAN" }

/-- Reference row EAN 1, state A. -/
def rowRefA : Row := [("EAN", some "1"), ("state", some "A")]

/-- Reference row EAN 2, state B. -/
def rowRefB : Row := [("EAN", some "2"), ("state", some "B")]

/-- Data row EAN 1, val x. -/
def rowDataX : Row := [("EAN", some "1"), ("val", some "x")]

/-- The spec's worked example reference table. -/
def refTableEx : Table := { cols := ["EAN", "state"], rows := [rowRefA, rowRefB] }

/-- The spec's worked example data table. -/
def dataTableEx : Table := { cols := ["EAN", "val"], rows := [rowDataX] }

/-- A data table with no rows. -/
def dataTableEmpty : Table := { cols := ["EAN", "val"], rows := [] }

/-- Reference row whose state holds a path separator. -/
def rowSlash : Row := [("EAN", some "1"), ("state", some "a/b")]

/-- Reference row whose state is the sanitized image of rowSlash's state. -/
def rowUnder : Row := [("EAN", some "1"), ("state", some "a_b")]

/-- Two distinct (state, EAN) pairs that sanitize to one path. -/
def refTableCollide : Table := { cols := ["EAN", "state"], rows := [rowSlash, rowUnder] }

/-- A row whose grouping value is null. -/
def rowNullState : Row := [("st", none), ("id", some "7")]

/-- A row with both keys present. -/
def rowOkState : Row := [("st", some "X"), ("id", some "7")]

/-- The merge of the worked example tables. -/
def mergedEx : List JoinedRow := mergeLeft refTableEx.rows dataTableEx.rows cfgEx

/-- The left_only joined row of the worked example. -/
def jrB : JoinedRow := ⟨rowRefB, none⟩

/-- The merge of the colliding reference table against no data rows. -/
def mergedCollide : List JoinedRow := mergeLeft refTableCollide.rows [] cfgEx

/-- The merge of the reference rows in descending EAN order against no data
rows: every row is left_only. -/
def mergedRev : List JoinedRow := mergeLeft [rowRefB, rowRefA] [] cfgEx

deriving instance DecidableEq for Except

/-! ### Helper lemmas about the list combinators of the embedding -/

/-- Membership in the first-occurrence deduplication. -/
theorem mem_dedupFirst {α : Type*} [DecidableEq α] (seen l : List α) (x : α) :
    x ∈ dedupFirst seen l ↔ x ∈ l ∧ x ∉ seen := by
  induction l generalizing seen with
  | nil => simp [dedupFirst]
  | cons y ys ih =>
    by_cases hy : y ∈ seen
    · rw [dedupFirst, if_pos hy, ih]
      simp only [List.mem_cons]
      constructor
      · rintro ⟨h1, h2⟩
        exact ⟨Or.inr h1, h2⟩
      · rintro ⟨h1 | h1, h2⟩
        · subst h1; exact absurd hy h2
        · exact ⟨h1, h2⟩
    · rw [dedupFirst, if_neg hy]
      simp only [List.mem_cons, ih]
      constructor
      · rintro (rfl | ⟨h1, h2⟩)
        · exact ⟨Or.inl rfl, hy⟩
        · simp only [List.mem_cons, not_or] at h2
          exact ⟨Or.inr h1, h2.2⟩
      · rintro ⟨h1, h2⟩
        by_cases hxy : x = y
        · exact Or.inl hxy
        · rcases h1 with rfl | h1
          · exact Or.inl rfl
          · exact Or.inr ⟨h1, by simp [List.mem_cons, hxy, h2]⟩

/-- First-occurrence deduplication yields no duplicates. -/
theorem nodup_dedupFirst {α : Type*} [DecidableEq α] (seen l : List α) :
    (dedupFirst seen l).Nodup := by
  induction l generalizing seen with
  | nil => simp [dedupFirst]
  | cons y ys ih =>
    by_cases hy : y ∈ seen
    · rw [dedupFirst, if_pos hy]
      exact ih seen
    · rw [dedupFirst, if_neg hy, List.nodup_cons]
      refine ⟨fun hmem => ?_, ih (y :: seen)⟩
      rw [mem_dedupFirst] at hmem
      exact hmem.2 (List.mem_cons_self y seen)

/-- First-occurrence deduplication preserves the input order. -/
theorem sublist_dedupFirst {α : Type*} [DecidableEq α] (seen l : List α) :
    (dedupFirst seen l).Sublist l := by
  induction l generalizing seen with
  | nil => simp [dedupFirst]
  | cons y ys ih =>
    by_cases hy : y ∈ seen
    · rw [dedupFirst, if_pos hy]
      exact (ih seen).cons y
    · rw [dedupFirst, if_neg hy]
      exact (ih (y :: seen)).cons₂ y

/-- Insertion does not change the members of a key list. -/
theorem mem_insertKey (k x : String × String) (l : List (String × String)) :
    x ∈ insertKey k l ↔ x = k ∨ x ∈ l := by
  induction l with
  | nil => simp [insertKey]
  | cons y ys ih =>
    rw [insertKey]
    by_cases h : keyLe k y
    · simp only [if_pos h, List.mem_cons]
    · simp only [if_neg h, List.mem_cons, ih]
      tauto

/-- Sorting does not change the members of a key list. -/
theorem mem_sortKeys (x : String × String) (l : List (String × String)) :
    x ∈ sortKeys l ↔ x ∈ l := by
  induction l with
  | nil => simp [sortKeys]
  | cons y ys ih =>
    rw [sortKeys, mem_insertKey, ih, List.mem_cons]

/-- Looking a path up after an overwriting write. -/
theorem lookup_fsWrite (t : List (String × FileData)) (p q : String) (c : FileData) :
    List.lookup p (fsWrite t q c) = if p = q then some c else List.lookup p t := by
  by_cases h : p = q
  · subst h
    rw [if_pos rfl, fsWrite]
    induction t with
    | nil => simp [List.lookup]
    | cons e es ih =>
      obtain ⟨k, v⟩ := e
      by_cases hk : k = p
      · subst hk
        simpa [List.filter_cons] using ih
      · have hk2 : (k == p) = false := beq_eq_false_iff_ne.mpr hk
        have hpk : (p == k) = false := beq_eq_false_iff_ne.mpr (Ne.symm hk)
        simp [List.filter_cons, hk2, List.lookup, hpk, ih]
  · rw [if_neg h, fsWrite]
    induction t with
    | nil => simp [List.lookup, beq_eq_false_iff_ne.mpr h]
    | cons e es ih =>
      obtain ⟨k, v⟩ := e
      by_cases hk : k = q
      · subst hk
        have hpk : (p == k) = false := beq_eq_false_iff_ne.mpr h
        simp [List.filter_cons, List.lookup, hpk, ih]
      · have hk2 : (k == q) = false := beq_eq_false_iff_ne.mpr hk
        cases hpk : p == k with
        | true => simp [List.filter_cons, hk2, List.lookup, hpk]
        | false => simp [List.filter_cons, hk2, List.lookup, hpk, ih]

/-- The content found at a path after the partition-writing fold is decided
by the last group key in iteration order whose sanitized path equals it. -/
theorem lookup_foldl_fsWrite (f : String × String → FileData) (ks : List (String × String))
    (init : List (String × FileData)) (p : String) :
    List.lookup p (ks.foldl (fun t k => fsWrite t (pathOf k) (f k)) init)
      = (ks.reverse.find? fun k => pathOf k == p).elim (List.lookup p init)
          (fun k => some (f k)) := by
  induction ks generalizing init with
  | nil => rfl
  | cons k₀ ks ih =>
    rw [List.foldl_cons, ih, List.reverse_cons, List.find?_append]
    cases hfind : ks.reverse.find? (fun k => pathOf k == p) with
    | some k => simp
    | none =>
      simp only [Option.none_or]
      by_cases hp : pathOf k₀ = p
      · have : (pathOf k₀ == p) = true := beq_iff_eq.mpr hp
        simp [List.find?, this, lookup_fsWrite, hp.symm]
      · have : (pathOf k₀ == p) = false := beq_eq_false_iff_ne.mpr hp
        simp [List.find?, this, lookup_fsWrite, Ne.symm hp]

/-- Splitting a list by a boolean test partitions its length. -/
theorem length_filter_partition {α : Type*} (p : α → Bool) (l : List α) :
    l.length = (l.filter p).length + (l.filter fun x => !(p x)).length := by
  induction l with
  | nil => rfl
  | cons x xs ih =>
    cases h : p x with
    | true => simp [List.filter_cons, h, ih]; omega
    | false => simp [List.filter_cons, h, ih]; omega

/-- The coordinate loop of pecs.py stops at the first null longitude: it
equals a takeWhile over the column list. -/
theorem extractListings_eq_takeWhile (state ean : String) (g : Bool) (row : Row)
    (cols : List (Nat × String)) :
    extractListings state ean g row cols
      = (cols.takeWhile fun c => (rowGet row c.2).isSome).map (mkListing state ean g row) := by
  induction cols with
  | nil => rfl
  | cons c rest ih =>
    cases h : rowGet row c.2 with
    | none => simp [extractListings, List.takeWhile_cons, h]
    | some v => simp [extractListings, List.takeWhile_cons, h, ih]

/-! ### The claims -/

/-- C1: the join is a left outer join on the composite key. For every
reference row, in reference order, the merge emits one matched JoinedRow
per matching data row in data order (fan-out, no re-sorting, no
deduplication) when matches exist, else exactly one unmatched JoinedRow
with a null data side; every reference row is preserved at least once, and
the length equation counts the output exactly. -/
theorem c1_left_outer_join (ref data : List Row) (cfg : Cfg) :
    mergeLeft ref data cfg
        = ref.flatMap (fun r =>
            if (matchesOf data cfg r).isEmpty then [⟨r, none⟩]
            else (matchesOf data cfg r).map fun d => ⟨r, some d⟩)
      ∧ (∀ r ∈ ref, ∃ jr ∈ mergeLeft ref data cfg, jr.ref = r)
      ∧ (∀ jr ∈ mergeLeft ref data cfg, jr.ref ∈ ref)
      ∧ (∀ jr ∈ mergeLeft ref data cfg, ∀ d, jr.data = some d → d ∈ matchesOf data cfg jr.ref)
      ∧ (∀ jr ∈ mergeLeft ref data cfg, jr.data = none → matchesOf data cfg jr.ref = [])
      ∧ (mergeLeft ref data cfg).length
          = (ref.map fun r => max (matchesOf data cfg r).length 1).sum := by
  have hblock : ∀ r, joinBlock data cfg r
      = if (matchesOf data cfg r).isEmpty then [⟨r, none⟩]
        else (matchesOf data cfg r).map fun d => ⟨r, some d⟩ := by
    intro r
    cases hm : matchesOf data cfg r with
    | nil => simp [joinBlock, hm]
    | cons d ds => simp [joinBlock, hm]
  refine ⟨?_, ?_, ?_, ?_, ?_, ?_⟩
  · rw [mergeLeft, show joinBlock data cfg = _ from funext hblock]
  · intro r hr
    cases hm : matchesOf data cfg r with
    | nil =>
      exact ⟨⟨r, none⟩, List.mem_flatMap.mpr ⟨r, hr, by simp [joinBlock, hm]⟩, rfl⟩
    | cons d ds =>
      exact ⟨⟨r, some d⟩, List.mem_flatMap.mpr ⟨r, hr, by simp [joinBlock, hm]⟩, rfl⟩
  · intro jr hjr
    obtain ⟨r, hr, hb⟩ := List.mem_flatMap.mp hjr
    cases hm : matchesOf data cfg r with
    | nil =>
      simp only [joinBlock, hm, List.mem_singleton] at hb
      subst hb; exact hr
    | cons d ds =>
      simp only [joinBlock, hm, List.mem_map] at hb
      obtain ⟨d2, _, rfl⟩ := hb
      exact hr
  · intro jr hjr d hd
    obtain ⟨r, hr, hb⟩ := List.mem_flatMap.mp hjr
    cases hm : matchesOf data cfg r with
    | nil =>
      simp only [joinBlock, hm, List.mem_singleton] at hb
      subst hb; simp at hd
    | cons d1 ds =>
      simp only [joinBlock, hm, List.mem_map] at hb
      obtain ⟨d2, hd2, rfl⟩ := hb
      simp only at hd
      obtain rfl : d2 = d := by injection hd
      simpa [hm] using hd2
  · intro jr hjr hd
    obtain ⟨r, hr, hb⟩ := List.mem_flatMap.mp hjr
    cases hm : matchesOf data cfg r with
    | nil =>
      simp only [joinBlock, hm, List.mem_singleton] at hb
      subst hb; exact hm
    | cons d1 ds =>
      simp only [joinBlock, hm, List.mem_map] at hb
      obtain ⟨d2, hd2, rfl⟩ := hb
      simp at hd
  · induction ref with
    | nil => rfl
    | cons r rs ih =>
      have hb : (joinBlock data cfg r).length = max (matchesOf data cfg r).length 1 := by
        cases hm : matchesOf data cfg r with
        | nil => simp [joinBlock, hm]
        | cons d ds => simp [joinBlock, hm]
      simp only [mergeLeft, List.flatMap_cons, List.length_append, List.map_cons,
        List.sum_cons] at *
      omega

/-- C2 counterexample: on the spec's worked example the archive does get a
partition file B/2.csv, holding the unmatched reference row with a null data
side, although that reference row has zero matching data rows. -/
theorem c2_counterexample :
    runPipelineE refTableEx dataTableEx cfgEx
        = .ok [("missing_eans.xlsx", FileData.report [(some "2", some "B")]),
               ("A/1.csv", FileData.partition [⟨rowRefA, some rowDataX⟩]),
               ("B/2.csv", FileData.partition [⟨rowRefB, none⟩])]
      ∧ List.lookup "B/2.csv" (buildTree mergedEx cfgEx []) =
          some (FileData.partition [⟨rowRefB, none⟩]) := by
  decide

/-- C2 amended: the groupby partitions every joined row, matched and
unmatched alike — any joined row whose state and EAN values are non-null
belongs to a groupby group whose file is written to the output tree; the
missing report is fed in addition, not instead. -/
theorem c2_unmatched_rows_also_partitioned (merged : List JoinedRow) (cfg : Cfg)
    (jr : JoinedRow) (s e : String) (h1 : jr ∈ merged)
    (h2 : rowGet jr.ref cfg.state = some s) (h3 : rowGet jr.ref cfg.ref_ean = some e) :
    (s, e) ∈ groupbyKeys merged cfg ∧ jr ∈ groupRows merged cfg (s, e) ∧
      List.lookup (pathOf (s, e)) (buildTree merged cfg []) ≠ none := by
  have hkmem : (s, e) ∈ groupbyKeys merged cfg := by
    rw [groupbyKeys, mem_sortKeys, mem_dedupFirst]
    refine ⟨?_, by simp⟩
    rw [mergedKeys, List.mem_filterMap]
    exact ⟨jr, h1, by simp [h2, h3]⟩
  refine ⟨hkmem, ?_, ?_⟩
  · rw [groupRows, List.mem_filter]
    exact ⟨h1, by simp [h2, h3]⟩
  · rw [buildTree, lookup_foldl_fsWrite]
    cases hfind : (groupbyKeys merged cfg).reverse.find? (fun k => pathOf k == pathOf (s, e)) with
    | some k => simp
    | none =>
      exfalso
      have hex : ∃ x ∈ (groupbyKeys merged cfg).reverse, (pathOf x == pathOf (s, e)) = true :=
        ⟨(s, e), List.mem_reverse.mpr hkmem, by simp⟩
      have := List.find?_isSome.mpr hex
      rw [hfind] at this
      simp at this

/-- C2 witness: instantiated on the worked example's unmatched row. -/
theorem c2_unmatched_rows_also_partitioned_witness :
    ("B", "2") ∈ groupbyKeys mergedEx cfgEx ∧ jrB ∈ groupRows mergedEx cfgEx ("B", "2") ∧
      List.lookup (pathOf ("B", "2")) (buildTree mergedEx cfgEx []) ≠ none :=
  c2_unmatched_rows_also_partitioned mergedEx cfgEx jrB "B" "2" (by decide) (by decide)
    (by decide)

/-- C3 counterexample: the key pairs (a/b, 1) and (a_b, 1) are distinct and
sanitize to the same path, yet the call succeeds — no CollisionError is
raised (the script has no such check) and the archive holds a single file at
the shared path, the later group having silently overwritten the earlier. -/
theorem c3_counterexample :
    (("a/b", "1") : String × String) ≠ ("a_b", "1")
      ∧ pathOf ("a/b", "1") = pathOf ("a_b", "1")
      ∧ runPipelineE refTableCollide dataTableEmpty cfgEx
          = .ok [("missing_eans.xlsx",
                  FileData.report [(some "1", some "a/b"), (some "1", some "a_b")]),
                 ("a_b/1.csv", FileData.partition [⟨rowUnder, none⟩])] := by
  decide

/-- C3 amended: key values are sanitized by replacing the path separator
with an underscore and trimming whitespace, but no collision detection
exists: the build always completes, and the file at any group's path holds
the rows of exactly one group whose key sanitizes to that path — on a
collision the others are silently overwritten, with no error naming the
colliding pairs. -/
theorem c3_silent_overwrite (merged : List JoinedRow) (cfg : Cfg) (k : String × String)
    (h : k ∈ groupbyKeys merged cfg) :
    ∃ kw, kw ∈ groupbyKeys merged cfg ∧ pathOf kw = pathOf k ∧
      List.lookup (pathOf k) (buildTree merged cfg [])
        = some (FileData.partition (groupRows merged cfg kw)) := by
  have hex : ∃ x ∈ (groupbyKeys merged cfg).reverse, (pathOf x == pathOf k) = true :=
    ⟨k, List.mem_reverse.mpr h, by simp⟩
  obtain ⟨kw, hkw⟩ := Option.isSome_iff_exists.mp (List.find?_isSome.mpr hex)
  have hp := List.find?_some hkw
  simp only at hp
  refine ⟨kw, List.mem_reverse.mp (List.mem_of_find?_eq_some hkw), beq_iff_eq.mp hp, ?_⟩
  rw [buildTree, lookup_foldl_fsWrite, hkw]
  rfl

/-- C3 witness: instantiated on the colliding example's first key pair. -/
theorem c3_silent_overwrite_witness :
    ∃ kw, kw ∈ groupbyKeys mergedCollide cfgEx ∧ pathOf kw = pathOf ("a/b", "1") ∧
      List.lookup (pathOf ("a/b", "1")) (buildTree mergedCollide cfgEx [])
        = some (FileData.partition (groupRows mergedCollide cfgEx kw)) :=
  c3_silent_overwrite mergedCollide cfgEx ("a/b", "1") (by decide)

/-- C4 counterexample: with the unmatched reference rows arriving in EAN
order 2 then 1, the missing report keeps that order — it is not sorted
lexicographically by join key. -/
theorem c4_counterexample :
    missingReport mergedRev cfgEx = [(some "2", some "B"), (some "1", some "A")]
      ∧ sortedByB pairLe (missingReport mergedRev cfgEx) = false := by
  decide

/-- C4 amended: the missing report holds exactly one entry per distinct
(join key, group key) pair occurring on an unmatched joined row — set
semantics via drop_duplicates — but its entries keep the first-occurrence
order of the unmatched rows; no sorting is applied. -/
theorem c4_missing_report_set_semantics (merged : List JoinedRow) (cfg : Cfg) :
    (missingReport merged cfg).Nodup
      ∧ (missingReport merged cfg).Sublist (projectMissing merged cfg)
      ∧ ∀ p, p ∈ missingReport merged cfg ↔ p ∈ projectMissing merged cfg := by
  refine ⟨nodup_dedupFirst _ _, sublist_dedupFirst _ _, fun p => ?_⟩
  rw [missingReport, mem_dedupFirst]
  simp

/-- C5 counterexample: two invocations on identical (reference, data,
configuration) inputs but at different filesystem times produce different
archives, because each ZIP entry header embeds the written file's
modification time. -/
theorem c5_counterexample :
    pipelineArchive refTableEx dataTableEx cfgEx 0
      ≠ pipelineArchive refTableEx dataTableEx cfgEx 1 := by
  decide

/-- C5 amended: the archive's paths and file contents are a deterministic
function of (reference, data, configuration) — two runs differ at most in
the embedded modification times of their entries. -/
theorem c5_content_deterministic_but_timestamped (ref data : Table) (cfg : Cfg)
    (m₁ m₂ : Nat) :
    (pipelineArchive ref data cfg m₁).map (fun es => es.map fun e => (e.arcname, e.fileData))
      = (pipelineArchive ref data cfg m₂).map
          (fun es => es.map fun e => (e.arcname, e.fileData)) := by
  cases h : runPipelineE ref data cfg <;>
    simp [pipelineArchive, h, create_zip, Except.map, List.map_map, Function.comp]

/-- C6 counterexample: a row whose grouping value is null is dropped by
dropna and appears in no output file at all — the output is empty, and in
particular no (UNASSIGNED, UNASSIGNED) partition exists. -/
theorem c6_counterexample :
    rowNullState ∈ [rowNullState] ∧ pecsmainSplit [rowNullState] "st" "id" = [] := by
  decide

/-- C6 amended: a row whose grouping or splitting key value is null is
silently excluded from every output file of the splitter — it is dropped,
not routed to any reserved partition. -/
theorem c6_null_key_rows_dropped (df : List Row) (gc sc : String) (r : Row)
    (h1 : r ∈ df) (h2 : rowGet r gc = none ∨ rowGet r sc = none) :
    (pecsmainSplit df gc sc).all (fun e => decide (r ∉ e.2)) = true := by
  rw [List.all_eq_true]
  intro e he
  rw [decide_eq_true_eq]
  intro hre
  rw [pecsmainSplit] at he
  obtain ⟨g, hg, he2⟩ := List.mem_flatMap.mp he
  obtain ⟨s, hs, rfl⟩ := List.mem_map.mp he2
  have hr2 := List.mem_filter.mp hre
  have hr1 := List.mem_filter.mp hr2.1
  rcases h2 with h2 | h2
  · rw [h2] at hr1
    simp at hr1
  · rw [h2] at hr2
    simp at hr2

/-- C6 witness: the null-keyed row is in no file of a two-row table. -/
theorem c6_null_key_rows_dropped_witness :
    (pecsmainSplit [rowNullState, rowOkState] "st" "id").all
        (fun e => decide (rowNullState ∉ e.2)) = true :=
  c6_null_key_rows_dropped [rowNullState, rowOkState] "st" "id" rowNullState (by decide)
    (by decide)

/-- C7 counterexample: on an empty reference table the call succeeds and
returns an archive with no partition files and no missing report — no
EmptyInputError exists and nothing fails. -/
theorem c7_counterexample :
    runPipelineE { cols := ["EAN", "state"], rows := [] } dataTableEx cfgEx = .ok [] := by
  decide

/-- C7 amended: an empty reference table is not rejected: provided the
configured state column exists, the pipeline succeeds and produces an empty
output tree (zero partitions, no missing report) for any data table. -/
theorem c7_empty_reference_succeeds (cols : List String) (data : Table) (cfg : Cfg)
    (h : cfg.state ∈ cols) :
    runPipelineE { cols := cols, rows := [] } data cfg = .ok [] := by
  unfold runPipelineE
  rw [if_pos h]
  rfl

/-- C7 witness: instantiated at a one-column schema. -/
theorem c7_empty_reference_succeeds_witness :
    runPipelineE { cols := ["state"], rows := [] } dataTableEmpty cfgEx = .ok [] :=
  c7_empty_reference_succeeds ["state"] dataTableEmpty cfgEx (by decide)

/-- C8 counterexample: with both the household column and the state column
absent, the emitted error cites only the household column — not the full
list of missing columns. -/
theorem c8_counterexample :
    hhVerifyReported ["EAN"] "hh_selected" = some ["hh_selected"]
      ∧ "state" ∉ (["EAN"] : List String)
      ∧ "state" ∉ (["hh_selected"] : List String) := by
  decide

/-- C8 amended: column validation runs before any row processing, but a
failure reports only the first failing check: when the household column is
absent its message names that column alone, whatever else is missing; the
state/EAN check (in pecs.py identically) emits one fixed message citing
state and EAN whichever of the two is absent. Validation passes exactly when
every configured column is present. -/
theorem c8_first_error_only (cols : List String) (sel : String) :
    (hhVerifyReported cols sel = none ↔ sel ∈ cols ∧ "state" ∈ cols ∧ "EAN" ∈ cols)
      ∧ (sel ∉ cols → hhVerifyReported cols sel = some [sel])
      ∧ (requiredColumnsCheck cols = none ↔ "state" ∈ cols ∧ "EAN" ∈ cols) := by
  refine ⟨?_, fun h => by simp [hhVerifyReported, h], ?_⟩
  · by_cases h1 : sel ∈ cols <;> by_cases h2 : "state" ∈ cols ∧ "EAN" ∈ cols <;>
      simp [hhVerifyReported, h1, h2]
  · by_cases h2 : "state" ∈ cols ∧ "EAN" ∈ cols <;>
      simp [requiredColumnsCheck, h2]

/-- C9: coordinate extraction walks the longitude columns in ascending
suffix order and stops at the first null longitude — the listings are
exactly the takeWhile prefix of non-null longitudes, so later columns are
ignored even when non-null; and when the very first longitude is null the
row yields no listings and hence no output file at all. -/
theorem c9_stop_at_first_null_longitude (state ean : String) (g : Bool) (row : Row)
    (cols : List (Nat × String)) :
    extractListings state ean g row (sortBySuffix cols)
        = ((sortBySuffix cols).takeWhile fun c => (rowGet row c.2).isSome).map
            (mkListing state ean g row)
      ∧ ∀ c, (sortBySuffix cols).head? = some c → rowGet row c.2 = none →
          row_output state ean g cols row = none := by
  refine ⟨extractListings_eq_takeWhile state ean g row (sortBySuffix cols), ?_⟩
  intro c hc hnull
  cases hs : sortBySuffix cols with
  | nil => rw [hs] at hc; simp at hc
  | cons a t =>
    rw [hs] at hc
    simp only [List.head?] at hc
    obtain rfl : a = c := by injection hc
    rw [row_output, hs]
    simp [extractListings, hnull]

/-- C10: process_data sends every comma-separated household figure of a row
to exactly one of the eligible and non-eligible lists, so in every output
row the selected-household total equals the eligibility count plus the
non-eligibility count. -/
theorem c10_total_eq_eligible_plus_non (cols : List String) (sel : String)
    (rows : List Row) :
    (process_data cols sel rows).all
        (fun res => res.total == res.eligible.length + res.nonEligible.length) = true := by
  rw [List.all_eq_true]
  intro res hres
  rw [process_data] at hres
  obtain ⟨row, hrow, rfl⟩ := List.mem_map.mp hres
  simp only [processRowHH, beq_iff_eq]
  exact length_filter_partition _ _

end PECS
